import Mathlib

/-
  Verification development for the Parliament Bill Auditor (src/app.py).

  The Python source is shallowly embedded below. Text is modelled as
  List Char. Lowercasing, stripping and the fixed keyword and regular
  expression tables mirror app.py. The regular expression fragments used
  by the validator are compiled to a small regular expression type with
  an executable Brzozowski derivative matcher; re.search corresponds to
  a full match of the pattern wrapped in unconstrained prefix and suffix.
-/

/-- The whitespace predicate used to model the Python str.strip and the
regex class backslash-s on ASCII text. -/
def isPySpace (c : Char) : Bool :=
  c = ' ' || c = '\t' || c = '\n' || c = '\r' || c = '\x0b' || c = '\x0c'

/-- Models Python str.lower on ASCII text, applied characterwise. -/
def lowerStr (t : List Char) : List Char := t.map Char.toLower

/-- Models Python str.strip: removes leading and trailing whitespace. -/
def pyStrip (t : List Char) : List Char :=
  ((t.dropWhile isPySpace).reverse.dropWhile isPySpace).reverse

/-- Regular expressions over characters: empty language, empty string,
single character satisfying a predicate, concatenation, alternation and
Kleene star. -/
inductive Regex where
  | emptyset : Regex
  | epsilon : Regex
  | pred : (Char → Bool) → Regex
  | cat : Regex → Regex → Regex
  | alt : Regex → Regex → Regex
  | star : Regex → Regex

/-- Whether the regular expression accepts the empty string. -/
def nullable : Regex → Bool
  | .emptyset => false
  | .epsilon => true
  | .pred _ => false
  | .cat r s => nullable r && nullable s
  | .alt r s => nullable r || nullable s
  | .star _ => true

/-- Smart concatenation, simplifying the empty language and empty string. -/
def scat : Regex → Regex → Regex
  | .emptyset, _ => .emptyset
  | .epsilon, s => s
  | _, .emptyset => .emptyset
  | r, .epsilon => r
  | r, s => .cat r s

/-- Smart alternation, simplifying the empty language. -/
def salt : Regex → Regex → Regex
  | .emptyset, s => s
  | r, .emptyset => r
  | r, s => .alt r s

/-- Brzozowski derivative with respect to one character. -/
def rderiv : Regex → Char → Regex
  | .emptyset, _ => .emptyset
  | .epsilon, _ => .emptyset
  | .pred p, c => if p c then .epsilon else .emptyset
  | .cat r s, c =>
      if nullable r then salt (scat (rderiv r c) s) (rderiv s c)
      else scat (rderiv r c) s
  | .alt r s, c => salt (rderiv r c) (rderiv s c)
  | .star r, c => scat (rderiv r c) (.star r)

/-- Whole-string match by iterated derivatives. -/
def rmatch (r : Regex) : List Char → Bool
  | [] => nullable r
  | c :: cs => rmatch (rderiv r c) cs

/-- A character matching any input character, as the DOTALL dot. -/
def anyCh : Regex := .pred (fun _ => true)

/-- The regex dot without DOTALL: any character except a newline. -/
def dotNoNl : Regex := .pred (fun c => !(c == '\n'))

/-- Models Python re.search: some substring of the input matches. -/
def research (r : Regex) (s : List Char) : Bool :=
  rmatch (.cat (.star anyCh) (.cat r (.star anyCh))) s

/-- One character matched ignoring case, as under re.IGNORECASE with a
lowercase literal. -/
def ichr (c : Char) : Regex := .pred (fun d => d.toLower == c)

/-- A literal string of ignore-case characters. -/
def rlit (s : String) : Regex := s.toList.foldr (fun c r => .cat (ichr c) r) .epsilon

/-- Concatenation of a list of regular expressions. -/
def rcat (l : List Regex) : Regex := l.foldr .cat .epsilon

/-- One or more repetitions. -/
def rplus (r : Regex) : Regex := .cat r (.star r)

/-- Zero or one occurrence. -/
def ropt (r : Regex) : Regex := .alt r .epsilon

/-- The regex class backslash-s. -/
def wsCh : Regex := .pred isPySpace

/-- One or more whitespace characters. -/
def wsP : Regex := rplus wsCh

/-- Zero or more whitespace characters. -/
def wsS : Regex := .star wsCh

/-- The regex class backslash-d, modelled on ASCII digits. -/
def digitCh : Regex := .pred (fun c => c.isDigit)

/-- Models Python str.find: the least index at which pat occurs as a
prefix of the corresponding suffix of s, if any. -/
def findSub (pat : List Char) : List Char → Option Nat
  | [] => if pat.isPrefixOf ([] : List Char) then some 0 else none
  | c :: r => if pat.isPrefixOf (c :: r) then some 0 else (findSub pat r).map (fun k => k + 1)

/-- Models the Python substring test (the in operator on strings). -/
def containsSub (pat s : List Char) : Bool := (findSub pat s).isSome

/-- The pattern r"a\s+bill\s+to\s+" from REAL_BILL_PATTERNS in app.py. -/
def pat_a_bill_to : Regex := rcat [rlit ("a"), wsP, rlit ("bill"), wsP, rlit ("to"), wsP]

/-- The pattern r"bill\s+no\.?\s*\d+" from REAL_BILL_PATTERNS in app.py. -/
def pat_bill_no : Regex := rcat [rlit ("bill"), wsP, rlit ("no"), ropt (ichr '.'), wsS, rplus digitCh]

/-- The pattern r"as\s+passed\s+by\s+(lok|rajya)\s+sabha" from REAL_BILL_PATTERNS in app.py. -/
def pat_as_passed : Regex :=
  rcat [rlit ("as"), wsP, rlit ("passed"), wsP, rlit ("by"), wsP, .alt (rlit ("lok")) (rlit ("rajya")), wsP, rlit ("sabha")]

/-- The pattern r"introduced\s+in\s+(lok|rajya)\s+sabha" from REAL_BILL_PATTERNS in app.py. -/
def pat_introduced_in : Regex :=
  rcat [rlit ("introduced"), wsP, rlit ("in"), wsP, .alt (rlit ("lok")) (rlit ("rajya")), wsP, rlit ("sabha")]

/-- The pattern r"minister\s+of\s+" from REAL_BILL_PATTERNS in app.py. -/
def pat_minister_of : Regex := rcat [rlit ("minister"), wsP, rlit ("of"), wsP]

/-- The pattern r"sponsored\s+by" from REAL_BILL_PATTERNS in app.py. -/
def pat_sponsored_by : Regex := rcat [rlit ("sponsored"), wsP, rlit ("by")]

/-- The pattern r"statement\s+of\s+objects\s+and\s+reasons" from REAL_BILL_PATTERNS in app.py. -/
def pat_objects_reasons : Regex :=
  rcat [rlit ("statement"), wsP, rlit ("of"), wsP, rlit ("objects"), wsP, rlit ("and"), wsP, rlit ("reasons")]

/-- The pattern r"financial\s+memorandum" from REAL_BILL_PATTERNS in app.py. -/
def pat_financial_memo : Regex := rcat [rlit ("financial"), wsP, rlit ("memorandum")]

/-- The REAL_BILL_PATTERNS table of app.py, in source order. -/
def REAL_BILL_PATTERNS : List Regex :=
  [pat_a_bill_to, pat_bill_no, pat_as_passed, pat_introduced_in,
   pat_minister_of, pat_sponsored_by, pat_objects_reasons, pat_financial_memo]

/-- The pattern r"example\s+bill" from EXAMPLE_PATTERNS in app.py. -/
def pat_example_bill : Regex := rcat [rlit ("example"), wsP, rlit ("bill")]

/-- The pattern r"test\s+document" from EXAMPLE_PATTERNS in app.py. -/
def pat_test_document : Regex := rcat [rlit ("test"), wsP, rlit ("document")]

/-- The pattern r"sample\s+text" from EXAMPLE_PATTERNS in app.py. -/
def pat_sample_text : Regex := rcat [rlit ("sample"), wsP, rlit ("text")]

/-- The pattern r"for\s+demonstration\s+purposes" from EXAMPLE_PATTERNS in app.py. -/
def pat_for_demo : Regex := rcat [rlit ("for"), wsP, rlit ("demonstration"), wsP, rlit ("purposes")]

/-- The pattern r"carriage\s+of\s+goods" from EXAMPLE_PATTERNS in app.py. -/
def pat_carriage : Regex := rcat [rlit ("carriage"), wsP, rlit ("of"), wsP, rlit ("goods")]

/-- The pattern r"question\s*:.*answer\s*:" from EXAMPLE_PATTERNS in app.py; searched
without re.DOTALL, so the dot does not cross a newline. -/
def pat_qa_line : Regex :=
  rcat [rlit ("question"), wsS, ichr ':', .star dotNoNl, rlit ("answer"), wsS, ichr ':']

/-- The EXAMPLE_PATTERNS table of app.py, in source order. -/
def EXAMPLE_PATTERNS : List Regex :=
  [pat_example_bill, pat_test_document, pat_sample_text, pat_for_demo, pat_carriage, pat_qa_line]

/-- The pattern r"question\s*:.*answer\s*:" as searched at line 61 of app.py with
re.DOTALL, so the dot also matches a newline. -/
def QA_DOTALL : Regex :=
  rcat [rlit ("question"), wsS, ichr ':', .star anyCh, rlit ("answer"), wsS, ichr ':']

/-- The BILL_KEYWORDS table of app.py, in source order. -/
def BILL_KEYWORDS : List String :=
  ["bill", "act", "parliament", "lok sabha", "rajya sabha", "gazette",
   "legislative", "enacted", "minister", "ministry", "objects and reasons",
   "vidheyak", "adhiniyam", "purasthapit", "introduced", "passed",
   "government", "legislation", "proposed", "sponsored", "amendment"]

/-- Number of REAL_BILL_PATTERNS entries that re.search finds in the
lowercased text (app.py lines 65-68), before the Lok Sabha weighting. -/
def strongIndicatorsBase (text_lower : List Char) : Nat :=
  (REAL_BILL_PATTERNS.filter (fun p => research p text_lower)).length

/-- Number of BILL_KEYWORDS contained in the lowercased text as
substrings (app.py line 71). -/
def keywordCount (text_lower : List Char) : Nat :=
  (BILL_KEYWORDS.filter (fun k => containsSub k.toList text_lower)).length

/-- Whether the lowercased text mentions lok sabha or rajya sabha
(app.py line 77). -/
def hasSabha (text_lower : List Char) : Bool :=
  containsSub ("lok sabha").toList text_lower || containsSub ("rajya sabha").toList text_lower

/-- The strong_indicators value at the decision point of app.py line 82:
the pattern count, weighted by 2 further points when lok sabha or rajya
sabha is mentioned (line 79). -/
def strongIndicators (text_lower : List Char) : Nat :=
  if hasSabha text_lower then strongIndicatorsBase text_lower + 2 else strongIndicatorsBase text_lower

/-- The bill_type value of app.py lines 74-78. -/
def billTypeOf (text_lower : List Char) : String :=
  if hasSabha text_lower then "indian" else "unknown"

/-- The acceptance message of app.py line 83. -/
def validReason (si kc : Nat) : String :=
  "✅ Valid parliamentary bill detected (" ++ toString si ++ " strong indicators, "
    ++ toString kc ++ " keywords)"

/-- The rejection message of app.py line 87. -/
def invalidReason (kc si : Nat) : String :=
  "Document doesn\x27t appear to be a parliamentary bill (only " ++ toString kc
    ++ " keywords, " ++ toString si ++ " strong indicators)"

/-- Embedding of is_valid_government_doc (app.py lines 44-87). The tuple
is (is_valid, reason_message, bill_type); lowerStr text stands for the
text_lower variable. -/
def is_valid_government_doc (text : List Char) : Bool × String × String :=
  if (pyStrip text).length < 500 then
    (false, "Document too short (less than 500 characters)", "invalid")
  else if EXAMPLE_PATTERNS.any (fun p => research p (lowerStr text)) then
    (false, "This appears to be an example/test document, not an actual parliamentary bill", "example")
  else if research QA_DOTALL (lowerStr text) then
    (false, "Document appears to contain instructional Q&A format, not a bill", "example")
  else if 2 ≤ strongIndicators (lowerStr text) ∧ 5 ≤ keywordCount (lowerStr text) then
    (true, validReason (strongIndicators (lowerStr text)) (keywordCount (lowerStr text)),
      billTypeOf (lowerStr text))
  else if 1 ≤ strongIndicators (lowerStr text) ∧ 3 ≤ keywordCount (lowerStr text) then
    (true, "⚠️ Possible bill detected - proceeding with analysis", billTypeOf (lowerStr text))
  else
    (false, invalidReason (keywordCount (lowerStr text)) (strongIndicators (lowerStr text)), "invalid")

/-- Models Python content.find(pat, start): the least occurrence index
that is at least start, if any. -/
def pyFind (pat content : List Char) (start : Nat) : Option Nat :=
  (findSub pat (List.drop start content)).map (fun k => k + start)

/-- One step of the end_idx loop of extract_section (app.py lines
292-295): keep the smaller of the accumulator and the next occurrence of
the heading at or after position p. -/
def nextIdx (content : List Char) (p : Nat) (acc : Nat) (h : List Char) : Nat :=
  match pyFind h content p with
  | some j => if j < acc then j else acc
  | none => acc

/-- The headings list of extract_section (app.py lines 285-287). -/
def HEADINGS : List (List Char) :=
  [("DOCUMENT TYPE:").toList, ("REASON:").toList, ("SECTOR:").toList,
   ("PROPOSER/SPONSOR:").toList, ("OBJECTIVE:").toList, ("DETAILED SUMMARY:").toList,
   ("IMPACT ANALYSIS:").toList, ("BENEFICIARIES:").toList, ("AFFECTED GROUPS:").toList,
   ("POSITIVES:").toList, ("NEGATIVES / RISKS:").toList]

/-- The end_idx computed by extract_section: starting from the text
length, take the earliest occurrence of any heading at or after
start_idx + 1 (app.py lines 290-295). -/
def sectionEnd (content : List Char) (start_idx : Nat) : Nat :=
  HEADINGS.foldl (nextIdx content (start_idx + 1)) content.length

/-- Index of the last newline of a list (meaningful when one exists). -/
def lastNlIdx (l : List Char) : Nat :=
  l.length - 1 - List.findIdx (fun d => d == '\n') l.reverse

/-- One pass of re.sub(r"\n\s*\n\s*\n+", "\n\n", text) (app.py line
301). A match starts at a newline whose maximal whitespace run holds at
least three newlines and extends to just past the last newline of that
run; the fuel argument only bounds the recursion and never runs out when
it starts at length + 1. -/
def collapseAux : Nat → List Char → List Char
  | 0, l => l
  | _, [] => []
  | fuel + 1, c :: rest =>
    if c = '\n' ∧ 3 ≤ ((List.takeWhile isPySpace (c :: rest)).filter (fun d => d == '\n')).length then
      '\n' :: '\n' :: collapseAux fuel (List.drop (lastNlIdx (List.takeWhile isPySpace (c :: rest)) + 1) (c :: rest))
    else c :: collapseAux fuel rest

/-- re.sub(r"\n\s*\n\s*\n+", "\n\n", text) from app.py line 301. -/
def collapseNl (l : List Char) : List Char := collapseAux (l.length + 1) l

/-- re.sub(r"^\s*[-*]\s*", "", text, flags=re.MULTILINE) (app.py line
300). The first argument is fuel, the second the character preceding the
current position (none at the start of the text). A match exists at a
line start exactly when the character after the maximal whitespace run
is a dash or an asterisk, and it extends through the following
whitespace run. -/
def subBulletsAux : Nat → Option Char → List Char → List Char
  | 0, _, l => l
  | _, _, [] => []
  | fuel + 1, prev, c :: rest =>
    if prev = none ∨ prev = some '\n' then
      match List.dropWhile isPySpace (c :: rest) with
      | d :: r2 =>
        if d = '-' ∨ d = '*' then
          subBulletsAux fuel (some ((List.takeWhile isPySpace r2).getLast?.getD d))
            (List.dropWhile isPySpace r2)
        else c :: subBulletsAux fuel (some c) rest
      | [] => c :: subBulletsAux fuel (some c) rest
    else c :: subBulletsAux fuel (some c) rest

/-- re.sub(r"^\s*[-*]\s*", "", text, flags=re.MULTILINE) from app.py
line 300. -/
def subBullets (l : List Char) : List Char := subBulletsAux (l.length + 1) none l

/-- The stripped raw slice content[start_idx:end_idx].strip() of app.py
line 297. -/
def rawSection (content : List Char) (start_idx : Nat) : List Char :=
  pyStrip (List.take (sectionEnd content start_idx - start_idx) (List.drop start_idx content))

/-- The clean-up and final return of extract_section (app.py lines
300-303): remove leading bullet markers, collapse blank-line runs, and
fall back to the no-content sentinel when the result is empty. -/
def renderSection (raw : List Char) : List Char :=
  if collapseNl (subBullets raw) = [] then ("No content in this section.").toList
  else collapseNl (subBullets raw)

/-- Embedding of extract_section (app.py lines 272-305) as a function of
the analysis text and the requested title. -/
def extract_section (content title : List Char) : List Char :=
  if content = [] then ("No analysis available.").toList
  else
    match findSub title content with
    | none => ("Section not found in analysis.").toList
    | some i => renderSection (rawSection content (i + title.length))

/-- The Section Extractor as claim C4 describes it: the slice after the
first occurrence of the target header, cut at the smallest start offset,
strictly after the end of the header, of any OTHER header of the fixed
list, with only leading and trailing whitespace stripped. -/
def extract_section_claim (content title : List Char) : List Char :=
  match findSub title content with
  | none => ("Section not found in analysis.").toList
  | some i =>
    pyStrip (List.take
      ((HEADINGS.filter (fun h => !(h == title))).foldl
          (nextIdx content (i + title.length + 1)) content.length - (i + title.length))
      (List.drop (i + title.length) content))

/-- Models Python text.split(sep) for a one-character separator: keeps
empty pieces and yields one piece more than there are separators. -/
def pySplit (sep : Char) : List Char → List (List Char)
  | [] => [[]]
  | c :: r =>
    if c = sep then [] :: pySplit sep r
    else
      match pySplit sep r with
      | [] => [[c]]
      | h :: t => (c :: h) :: t

/-- Concatenation of a list of chunks. -/
def joinAll : List (List Char) → List Char
  | [] => []
  | a :: t => a ++ joinAll t

/-- Rejoin split lines with newlines, the inverse of pySplit. -/
def joinNl : List (List Char) → List Char
  | [] => []
  | [a] => a
  | a :: b :: t => a ++ '\n' :: joinNl (b :: t)

/-- The chunk list [line[i:i+95] for i in range(0, len(line), 95)] of
app.py line 323. -/
def pyChunks95 (line : List Char) : List (List Char) :=
  (List.range ((line.length + 94) / 95)).map (fun k => List.take 95 (List.drop (95 * k) line))

/-- The strings drawn for one line of generate_pdf: the chunk list when
the line exceeds 95 characters, otherwise the line itself (app.py lines
322-329). -/
def wrapLine (line : List Char) : List (List Char) :=
  if 95 < line.length then pyChunks95 line else [line]

/-- Per-line wrapping concatenated over a list of lines, in order. -/
def flatWrap : List (List Char) → List (List Char)
  | [] => []
  | l :: t => wrapLine l ++ flatWrap t

/-- The drawString sequence of the line loop of generate_pdf (app.py
lines 315-329), threading the vertical coordinate: it is reset to 800
when below 50 at the start of a line and decreases by 15 per drawn
string. Page breaks do not change the drawn strings. -/
def drawLines : Int → List (List Char) → List (List Char)
  | _, [] => []
  | y, line :: rest =>
    if 95 < line.length then
      pyChunks95 line ++
        drawLines ((if y < 50 then 800 else y) - 15 * (pyChunks95 line).length) rest
    else
      line :: drawLines ((if y < 50 then 800 else y) - 15) rest

/-- The full sequence of strings drawn into the PDF by generate_pdf
(app.py lines 307-333) for a given text. -/
def generate_pdf_drawn (text : List Char) : List (List Char) :=
  drawLines 800 (pySplit '\n' text)

/-- The Streamlit session state of app.py lines 109-121. -/
structure SessionState where
  analysis : Option String
  full_text : String
  last_file : Option String
  bill_proposer : Option String
  bill_type : Option String
  validation_status : Option (Bool × String)

/-- Models the Generate Analysis click handler of app.py lines 196-269:
llm.invoke is an opaque external call whose outcome is passed in as an
Except value; on success the response content is stored in the session
analysis, on an exception the error banner text is produced and the
session state is left untouched. -/
def generateAnalysis (llmOutcome : Except String String) (s : SessionState) :
    SessionState × Option String :=
  match llmOutcome with
  | Except.ok content => ({ s with analysis := some content }, none)
  | Except.error e => (s, some ("Error during analysis: " ++ e))

/-- A concrete bill-like text used as acceptance witness input. -/
def W1 : List Char :=
  ("A Bill to provide for the regulation and supervision of digital payment services and for matters connected therewith. Bill No. 214 of 2024. As introduced in Lok Sabha on the twelfth day of March. Statement of Objects and Reasons. The growth of digital payment services has made regulation necessary for the protection of consumers. The Minister of Finance sponsored the measure, and the legislation was placed before Parliament by the ministry after consultation with the gazette office. This amendment extends the parent act and the enacted framework that the government proposed earlier in the year.").toList

/-- A concrete short text full of keywords, below the length threshold. -/
def W2 : List Char :=
  ("Question: is this a bill? Answer: it mentions parliament, lok sabha, minister, act, government.").toList

/-- A concrete long text containing a multi-line Question/Answer block. -/
def W3 : List Char :=
  ("Question: which chamber considered the measure?\nAnswer: the measure was considered at length by both chambers over several sittings. The committee met on the first sitting day of the winter session and considered the clauses one by one, recording the views of each member in the minutes. The chairperson invited the officials of the department to explain the financial and administrative burden of each clause, and the members then voted on each clause in turn before the draft was returned to the drafting office for renumbering and correction of cross references in the schedule.").toList

/-- A concrete long text mentioning the lok sabha with exactly three
keywords and no strong-indicator pattern. -/
def W7 : List Char :=
  ("The gazette of the republic records that the members of the lok sabha gathered for the monsoon session to debate the allocation of funds for rural schools and village clinics. The parliament heard long speeches about the state of public services, and the gazette noted every word for the record. Members rose one after another to describe the needs of their regions, and the house adjourned late in the evening after a lengthy roll call. The clerks of the parliament prepared the order paper for the following sitting day.").toList

/-- A concrete short text containing a Question/Answer block. -/
def CE3 : List Char :=
  ("Question: what is this document? Answer: a short note.").toList

/-- The literal invoice text of the spec scenario. -/
def INVOICE : List Char := ("Invoice #4521, due April 2024").toList

/-- The synthetic analysis blob of the spec test property. -/
def BLOB : List Char :=
  ("SECTOR:\nFinance\n\nOBJECTIVE:\nTo regulate banks.\n\nPOSITIVES:\nStability.").toList

/-- A concrete analysis text whose objective section starts with a
bullet marker. -/
def CE4 : List Char :=
  ("OBJECTIVE:\n- To regulate banks.\n\nPOSITIVES:\nStability.").toList

/-- A concrete analysis text containing only a lowercase variant of the
SECTOR: header. -/
def CE6 : List Char := ("sector:\nFinance").toList

set_option maxRecDepth 10000

theorem findSub_some_le (pat s : List Char) (i : Nat) (h : findSub pat s = some i) :
    i ≤ s.length ∧ pat.isPrefixOf (List.drop i s) = true := by
  induction s generalizing i with
  | nil =>
    unfold findSub at h
    by_cases hp : pat.isPrefixOf ([] : List Char) = true
    · rw [if_pos hp] at h
      cases h
      exact ⟨Nat.le_refl 0, hp⟩
    · rw [if_neg hp] at h
      cases h
  | cons c r ih =>
    unfold findSub at h
    by_cases hp : pat.isPrefixOf (c :: r) = true
    · rw [if_pos hp] at h
      cases h
      exact ⟨Nat.zero_le _, hp⟩
    · rw [if_neg hp] at h
      rcases Option.map_eq_some'.mp h with ⟨k, hk, hik⟩
      rcases ih k hk with ⟨hkle, hkpre⟩
      subst hik
      exact ⟨Nat.succ_le_succ hkle, by simpa using hkpre⟩

theorem findSub_least (pat s : List Char) (i : Nat) (h : findSub pat s = some i) :
    ∀ j, pat.isPrefixOf (List.drop j s) = true → i ≤ j := by
  induction s generalizing i with
  | nil =>
    intro j hj
    unfold findSub at h
    by_cases hp : pat.isPrefixOf ([] : List Char) = true
    · rw [if_pos hp] at h
      cases h
      exact Nat.zero_le j
    · rw [if_neg hp] at h
      cases h
  | cons c r ih =>
    intro j hj
    unfold findSub at h
    by_cases hp : pat.isPrefixOf (c :: r) = true
    · rw [if_pos hp] at h
      cases h
      exact Nat.zero_le j
    · rw [if_neg hp] at h
      rcases Option.map_eq_some'.mp h with ⟨k, hk, hik⟩
      subst hik
      cases j with
      | zero => exact absurd hj hp
      | succ j0 => exact Nat.succ_le_succ (ih k hk j0 (by simpa using hj))

theorem findSub_none_no_occ (pat s : List Char) (h : findSub pat s = none) :
    ∀ j, pat.isPrefixOf (List.drop j s) = false := by
  induction s with
  | nil =>
    intro j
    unfold findSub at h
    by_cases hp : pat.isPrefixOf ([] : List Char) = true
    · rw [if_pos hp] at h
      cases h
    · rw [if_neg hp] at h
      simpa using Bool.of_not_eq_true hp
  | cons c r ih =>
    intro j
    unfold findSub at h
    by_cases hp : pat.isPrefixOf (c :: r) = true
    · rw [if_pos hp] at h
      cases h
    · rw [if_neg hp] at h
      cases j with
      | zero => exact Bool.of_not_eq_true hp
      | succ j0 =>
        have hr : findSub pat r = none := Option.map_eq_none'.mp h
        simpa using ih hr j0

theorem findSub_none_of_no_occ (pat s : List Char)
    (h : ∀ j, j ≤ s.length → pat.isPrefixOf (List.drop j s) = false) :
    findSub pat s = none := by
  cases hf : findSub pat s with
  | none => rfl
  | some i =>
    rcases findSub_some_le pat s i hf with ⟨hle, hpre⟩
    rw [h i hle] at hpre
    cases hpre

/-- Claim C2: for every input text whose trimmed length is below 500,
the validator rejects with the too-short reason and classification
invalid, regardless of keyword or pattern content. -/
theorem validator_too_short (text : List Char)
    (h : (pyStrip text).length < 500) :
    is_valid_government_doc text =
      (false, "Document too short (less than 500 characters)", "invalid") := by
  unfold is_valid_government_doc
  rw [if_pos h]

/-- Witness: validator_too_short applied to the short keyword-rich text W2. -/
theorem validator_too_short_witness :
    is_valid_government_doc W2 =
      (false, "Document too short (less than 500 characters)", "invalid") :=
  validator_too_short W2 (by decide)

/-- Counterexample to claim C3 as stated: CE3 contains a Question/Answer
block, yet the validator does not classify it as example, because the
length check fires first and classifies it as invalid. -/
theorem validator_qa_counterexample :
    research QA_DOTALL (lowerStr CE3) = true ∧
    (is_valid_government_doc CE3).2.2 ≠ "example" := by decide

/-- Claim C3 as amended: for texts of trimmed length at least 500 that
contain a Question/Answer block (case-insensitive, possibly spanning
lines), the validator rejects with classification example, whatever
keywords and strong indicators are present. -/
theorem validator_example_qa (text : List Char)
    (hlen : ¬ (pyStrip text).length < 500)
    (hqa : research QA_DOTALL (lowerStr text) = true) :
    (is_valid_government_doc text).1 = false ∧
    (is_valid_government_doc text).2.2 = "example" := by
  unfold is_valid_government_doc
  rw [if_neg hlen]
  by_cases hex : EXAMPLE_PATTERNS.any (fun p => research p (lowerStr text)) = true
  · rw [if_pos hex]
    exact ⟨rfl, rfl⟩
  · rw [if_neg hex, if_pos hqa]
    exact ⟨rfl, rfl⟩

/-- Witness: validator_example_qa applied to the long Q and A text W3. -/
theorem validator_example_qa_witness :
    (is_valid_government_doc W3).1 = false ∧
    (is_valid_government_doc W3).2.2 = "example" :=
  validator_example_qa W3 (by decide) (by decide)

/-- Claim C9: when the LLM invocation raises, the generate-analysis
handler leaves the whole session state, in particular the stored
analysis, unchanged. -/
theorem analysis_atomic_on_error (s : SessionState) (e : String) :
    (generateAnalysis (Except.error e) s).1 = s ∧
    (generateAnalysis (Except.error e) s).1.analysis = s.analysis :=
  ⟨rfl, rfl⟩

/-- Counterexample to claim C8 as stated: the invoice text is rejected,
but with the too-short reason, not with the insufficient-indicators
reason the claim names. -/
theorem invoice_counterexample :
    is_valid_government_doc INVOICE =
      (false, "Document too short (less than 500 characters)", "invalid") ∧
    (is_valid_government_doc INVOICE).2.1 ≠
      invalidReason (keywordCount (lowerStr INVOICE)) (strongIndicators (lowerStr INVOICE)) := by
  decide

/-- Claim C8 as amended: the invoice text is rejected with the too-short
reason and classification invalid; the indicator-count check is never
reached. -/
theorem invoice_rejected_too_short :
    is_valid_government_doc INVOICE =
      (false, "Document too short (less than 500 characters)", "invalid") := by decide

/-- Claim C5: on the synthetic analysis blob, extracting OBJECTIVE:
yields exactly the stripped objective text, and extracting the absent
NEGATIVES / RISKS: header yields the fixed not-found sentinel. -/
theorem extract_section_concrete :
    extract_section BLOB ("OBJECTIVE:").toList = ("To regulate banks.").toList ∧
    extract_section BLOB ("NEGATIVES / RISKS:").toList =
      ("Section not found in analysis.").toList := by decide

/-- Counterexample to claim C6 as stated: CE6 contains the lowercase
variant sector: of the SECTOR: header, yet extraction returns the
not-found sentinel instead of the section content Finance. -/
theorem case_variant_counterexample :
    containsSub ("sector:").toList CE6 = true ∧
    extract_section CE6 ("SECTOR:").toList = ("Section not found in analysis.").toList ∧
    ("Section not found in analysis.").toList ≠ ("Finance").toList := by decide

/-- Claim C6 as amended: when the exact header does not occur in a
nonempty analysis text, extract_section returns the not-found sentinel
at once; no case or punctuation variants are tried. -/
theorem extract_section_exact_only (content title : List Char)
    (hne : content ≠ [])
    (habs : ∀ j, j ≤ content.length → title.isPrefixOf (List.drop j content) = false) :
    extract_section content title = ("Section not found in analysis.").toList := by
  have hnone : findSub title content = none := findSub_none_of_no_occ title content habs
  unfold extract_section
  rw [if_neg hne, hnone]

/-- Witness: extract_section_exact_only applied to the lowercase text CE6. -/
theorem extract_section_exact_only_witness :
    extract_section CE6 ("SECTOR:").toList = ("Section not found in analysis.").toList :=
  extract_section_exact_only CE6 (("SECTOR:").toList) (by decide) (by decide)

/-- Claim C7: for a long, non-example text mentioning lok sabha or rajya
sabha, the strong-indicator count is the pattern count weighted by two
and the bill type is indian; hence three keyword matches already give
acceptance with classification indian, even with zero pattern matches. -/
theorem validator_lok_sabha (text : List Char)
    (hlen : ¬ (pyStrip text).length < 500)
    (hex : EXAMPLE_PATTERNS.any (fun p => research p (lowerStr text)) = false)
    (hqa : research QA_DOTALL (lowerStr text) = false)
    (hls : hasSabha (lowerStr text) = true) :
    strongIndicators (lowerStr text) = strongIndicatorsBase (lowerStr text) + 2 ∧
    billTypeOf (lowerStr text) = "indian" ∧
    (3 ≤ keywordCount (lowerStr text) →
      (is_valid_government_doc text).1 = true ∧
      (is_valid_government_doc text).2.2 = "indian") := by
  have hsi : strongIndicators (lowerStr text) = strongIndicatorsBase (lowerStr text) + 2 := by
    unfold strongIndicators
    rw [if_pos hls]
  have hbt : billTypeOf (lowerStr text) = "indian" := by
    unfold billTypeOf
    rw [if_pos hls]
  refine ⟨hsi, hbt, fun hkc => ?_⟩
  unfold is_valid_government_doc
  rw [if_neg hlen, hex, hqa]
  simp only [Bool.false_eq_true, if_false]
  by_cases h5 : 5 ≤ keywordCount (lowerStr text)
  · rw [if_pos ⟨by omega, h5⟩]
    exact ⟨rfl, hbt⟩
  · rw [if_neg (fun hc => h5 hc.2), if_pos ⟨by omega, hkc⟩]
    exact ⟨rfl, hbt⟩

/-- Witness: validator_lok_sabha applied to the pattern-free lok sabha
text W7, which has exactly three keyword matches. -/
theorem validator_lok_sabha_witness :
    (is_valid_government_doc W7).1 = true ∧
    (is_valid_government_doc W7).2.2 = "indian" :=
  (validator_lok_sabha W7 (by decide) (by decide) (by decide) (by decide)).2.2 (by decide)

/-- Claim C1: for texts of trimmed length at least 500 matching no
example pattern, the validator follows the decision table on the
strong-indicator count (pattern count with the lok sabha weighting) and
the distinct-keyword count: at least 2 and 5 gives acceptance with the
valid reason, otherwise at least 1 and 3 gives acceptance with the
possible-bill caveat, otherwise rejection. -/
theorem validator_decision_table (text : List Char)
    (hlen : ¬ (pyStrip text).length < 500)
    (hex : EXAMPLE_PATTERNS.any (fun p => research p (lowerStr text)) = false)
    (hqa : research QA_DOTALL (lowerStr text) = false) :
    (2 ≤ strongIndicators (lowerStr text) ∧ 5 ≤ keywordCount (lowerStr text) →
      is_valid_government_doc text =
        (true, validReason (strongIndicators (lowerStr text)) (keywordCount (lowerStr text)),
          billTypeOf (lowerStr text))) ∧
    (¬ (2 ≤ strongIndicators (lowerStr text) ∧ 5 ≤ keywordCount (lowerStr text)) →
      1 ≤ strongIndicators (lowerStr text) ∧ 3 ≤ keywordCount (lowerStr text) →
      is_valid_government_doc text =
        (true, "⚠️ Possible bill detected - proceeding with analysis",
          billTypeOf (lowerStr text))) ∧
    (¬ (2 ≤ strongIndicators (lowerStr text) ∧ 5 ≤ keywordCount (lowerStr text)) →
      ¬ (1 ≤ strongIndicators (lowerStr text) ∧ 3 ≤ keywordCount (lowerStr text)) →
      is_valid_government_doc text =
        (false, invalidReason (keywordCount (lowerStr text)) (strongIndicators (lowerStr text)),
          "invalid")) := by
  unfold is_valid_government_doc
  rw [if_neg hlen, hex, hqa]
  simp only [Bool.false_eq_true, if_false]
  refine ⟨fun h1 => ?_, fun hn1 h2 => ?_, fun hn1 hn2 => ?_⟩
  · rw [if_pos h1]
  · rw [if_neg hn1, if_pos h2]
  · rw [if_neg hn1, if_neg hn2]

/-- Witness: validator_decision_table applied to the long synthetic bill
text W1, which lands in the fully-valid branch. -/
theorem validator_decision_table_witness :
    is_valid_government_doc W1 =
      (true, validReason (strongIndicators (lowerStr W1)) (keywordCount (lowerStr W1)),
        billTypeOf (lowerStr W1)) :=
  (validator_decision_table W1 (by decide) (by decide) (by decide)).1 (by decide)

theorem pyFind_some (pat content : List Char) (p j : Nat)
    (h : pyFind pat content p = some j) :
    p ≤ j ∧ pat.isPrefixOf (List.drop j content) = true ∧
      ∀ j2, p ≤ j2 → pat.isPrefixOf (List.drop j2 content) = true → j ≤ j2 := by
  rcases Option.map_eq_some'.mp h with ⟨k, hk, hkj⟩
  subst hkj
  rcases findSub_some_le pat (List.drop p content) k hk with ⟨_, hpre⟩
  refine ⟨Nat.le_add_left p k, ?_, ?_⟩
  · rw [Nat.add_comm k p]
    rw [List.drop_drop] at hpre
    exact hpre
  · intro j2 hpj2 hj2
    have hj2d : pat.isPrefixOf (List.drop (j2 - p) (List.drop p content)) = true := by
      rw [List.drop_drop]
      have : p + (j2 - p) = j2 := by omega
      rw [this]
      exact hj2
    have := findSub_least pat (List.drop p content) k hk (j2 - p) hj2d
    omega

theorem pyFind_none (pat content : List Char) (p : Nat)
    (h : pyFind pat content p = none) :
    ∀ j, p ≤ j → pat.isPrefixOf (List.drop j content) = false := by
  intro j hpj
  have hn : findSub pat (List.drop p content) = none := Option.map_eq_none'.mp h
  have := findSub_none_no_occ pat (List.drop p content) hn (j - p)
  rw [List.drop_drop] at this
  have hpj2 : p + (j - p) = j := by omega
  rw [hpj2] at this
  exact this

theorem nextIdx_le (content : List Char) (p acc : Nat) (h0 : List Char) :
    nextIdx content p acc h0 ≤ acc := by
  unfold nextIdx
  split
  · split <;> omega
  · omega

theorem nextIdx_eq_of_some (content : List Char) (p acc : Nat) (h0 : List Char) (j : Nat)
    (hf : pyFind h0 content p = some j) :
    nextIdx content p acc h0 = if j < acc then j else acc := by
  unfold nextIdx
  rw [hf]

theorem nextIdx_le_some (content : List Char) (p acc : Nat) (h0 : List Char) (j : Nat)
    (hf : pyFind h0 content p = some j) :
    nextIdx content p acc h0 ≤ j := by
  rw [nextIdx_eq_of_some content p acc h0 j hf]
  by_cases hlt : j < acc
  · rw [if_pos hlt]
  · rw [if_neg hlt]
    omega

theorem nextIdx_cases (content : List Char) (p acc : Nat) (h0 : List Char) :
    nextIdx content p acc h0 = acc ∨
      pyFind h0 content p = some (nextIdx content p acc h0) := by
  cases hf : pyFind h0 content p with
  | none =>
    unfold nextIdx
    rw [hf]
    exact Or.inl rfl
  | some j =>
    rw [nextIdx_eq_of_some content p acc h0 j hf]
    by_cases hlt : j < acc
    · rw [if_pos hlt]
      exact Or.inr rfl
    · rw [if_neg hlt]
      exact Or.inl rfl

theorem foldl_nextIdx_spec (content : List Char) (p : Nat) (l : List (List Char)) :
    ∀ acc : Nat,
      (l.foldl (nextIdx content p) acc = acc ∨
        ∃ h, h ∈ l ∧ pyFind h content p = some (l.foldl (nextIdx content p) acc)) ∧
      l.foldl (nextIdx content p) acc ≤ acc ∧
      ∀ h, h ∈ l → ∀ j, pyFind h content p = some j →
        l.foldl (nextIdx content p) acc ≤ j := by
  induction l with
  | nil =>
    intro acc
    refine ⟨Or.inl rfl, Nat.le_refl acc, ?_⟩
    intro h hmem
    exact absurd hmem (List.not_mem_nil h)
  | cons h0 t ih =>
    intro acc
    rw [List.foldl_cons]
    rcases ih (nextIdx content p acc h0) with ⟨hcase, hle, hmin⟩
    have hacc : nextIdx content p acc h0 ≤ acc := nextIdx_le content p acc h0
    refine ⟨?_, Nat.le_trans hle hacc, ?_⟩
    · rcases hcase with heq | ⟨h1, hmem1, hfind1⟩
      · rw [heq]
        rcases nextIdx_cases content p acc h0 with hn | hn
        · exact Or.inl hn
        · exact Or.inr ⟨h0, List.mem_cons_self h0 t, hn⟩
      · exact Or.inr ⟨h1, List.mem_cons_of_mem h0 hmem1, hfind1⟩
    · intro h1 hmem1 j hfj
      rcases List.mem_cons.mp hmem1 with rfl | hmem2
      · exact Nat.le_trans hle (nextIdx_le_some content p acc h1 j hfj)
      · exact hmin h1 hmem2 j hfj

/-- Counterexample to claim C4 as stated: on CE4 the code result differs
from the claim description, because the code additionally removes the
leading bullet marker of the section body. -/
theorem extract_section_vs_claim_counterexample :
    extract_section CE4 ("OBJECTIVE:").toList ≠
      extract_section_claim CE4 ("OBJECTIVE:").toList ∧
    extract_section CE4 ("OBJECTIVE:").toList = ("To regulate banks.").toList ∧
    extract_section_claim CE4 ("OBJECTIVE:").toList = ("- To regulate banks.").toList := by
  decide

/-- Claim C4 as amended: for a nonempty analysis text in which the
target header occurs first at index i, extract_section returns the slice
that starts right after the header and ends at the smallest occurrence
position, strictly after that point, of any header of the fixed list
(the target itself included), or at the end of the text when none
occurs; the slice is stripped of surrounding whitespace and then cleaned
of leading bullet markers and of runs of blank lines, with an explicit
no-content sentinel when nothing remains. -/
theorem extract_section_amended (content title : List Char) (i : Nat)
    (hne : content ≠ [])
    (hocc : findSub title content = some i) :
    extract_section content title =
      renderSection (rawSection content (i + title.length)) ∧
    title.isPrefixOf (List.drop i content) = true ∧
    (∀ j, title.isPrefixOf (List.drop j content) = true → i ≤ j) ∧
    sectionEnd content (i + title.length) ≤ content.length ∧
    (sectionEnd content (i + title.length) = content.length ∨
      ∃ h, h ∈ HEADINGS ∧
        h.isPrefixOf (List.drop (sectionEnd content (i + title.length)) content) = true ∧
        i + title.length + 1 ≤ sectionEnd content (i + title.length)) ∧
    (∀ h, h ∈ HEADINGS → ∀ j, i + title.length + 1 ≤ j →
      h.isPrefixOf (List.drop j content) = true →
      sectionEnd content (i + title.length) ≤ j) := by
  rcases foldl_nextIdx_spec content (i + title.length + 1) HEADINGS content.length with
    ⟨hcase, hle, hmin⟩
  refine ⟨?_, (findSub_some_le title content i hocc).2, findSub_least title content i hocc,
    hle, ?_, ?_⟩
  · unfold extract_section
    rw [if_neg hne, hocc]
  · rcases hcase with heq | ⟨h, hmem, hfind⟩
    · exact Or.inl heq
    · rcases pyFind_some h content (i + title.length + 1) _ hfind with ⟨hp1, hp2, _⟩
      exact Or.inr ⟨h, hmem, hp2, hp1⟩
  · intro h hmem j hj hpre
    cases hf : pyFind h content (i + title.length + 1) with
    | none =>
      rw [pyFind_none h content (i + title.length + 1) hf j hj] at hpre
      cases hpre
    | some j0 =>
      rcases pyFind_some h content (i + title.length + 1) j0 hf with ⟨_, _, hleast⟩
      exact Nat.le_trans (hmin h hmem j0 hf) (hleast j hj hpre)

/-- Witness: extract_section_amended applied to the synthetic blob at
the SECTOR: header, whose section evaluates to Finance. -/
theorem extract_section_amended_witness :
    extract_section BLOB ("SECTOR:").toList =
      renderSection (rawSection BLOB (0 + ("SECTOR:").toList.length)) ∧
    renderSection (rawSection BLOB (0 + ("SECTOR:").toList.length)) = ("Finance").toList :=
  ⟨(extract_section_amended BLOB (("SECTOR:").toList) 0 (by decide) (by decide)).1, by decide⟩

theorem pyChunks95_cons (l : List Char) (hl : l ≠ []) :
    pyChunks95 l = List.take 95 l :: pyChunks95 (List.drop 95 l) := by
  have hlen : 1 ≤ l.length := List.length_pos.mpr hl
  by_cases h95 : l.length ≤ 95
  · have h1 : (l.length + 94) / 95 = 1 := by omega
    have h2 : List.drop 95 l = [] := List.drop_eq_nil_of_le h95
    have hr1 : List.range 1 = [0] := by decide
    unfold pyChunks95
    rw [h1, h2, hr1, List.map_cons, List.map_nil, Nat.mul_zero, List.drop_zero]
    simp
  · have h1 : (l.length + 94) / 95 = ((List.drop 95 l).length + 94) / 95 + 1 := by
      rw [List.length_drop]
      omega
    unfold pyChunks95
    rw [h1, List.range_succ_eq_map, List.map_cons, List.map_map]
    congr 1
    apply List.map_congr_left
    intro k _
    simp only [Function.comp_apply]
    rw [List.drop_drop]
    congr 1
    congr 1
    omega

theorem joinAll_pyChunks95 (l : List Char) : joinAll (pyChunks95 l) = l := by
  by_cases h : l = []
  · subst h
    rfl
  · rw [pyChunks95_cons l h]
    unfold joinAll
    rw [joinAll_pyChunks95 (List.drop 95 l)]
    exact List.take_append_drop 95 l
termination_by l.length
decreasing_by
  rw [List.length_drop]
  have := List.length_pos.mpr h
  omega

theorem pyChunks95_chunk_le (l : List Char) :
    ∀ ch, ch ∈ pyChunks95 l → ch.length ≤ 95 := by
  intro ch hch
  unfold pyChunks95 at hch
  rcases List.mem_map.mp hch with ⟨k, _, hceq⟩
  subst hceq
  rw [List.length_take]
  exact min_le_left _ _

theorem wrapLine_join (line : List Char) : joinAll (wrapLine line) = line := by
  unfold wrapLine
  by_cases h : 95 < line.length
  · rw [if_pos h]
    exact joinAll_pyChunks95 line
  · rw [if_neg h]
    show line ++ joinAll [] = line
    exact List.append_nil line

theorem wrapLine_chunk_le (line : List Char) :
    ∀ ch, ch ∈ wrapLine line → ch.length ≤ 95 := by
  intro ch hch
  unfold wrapLine at hch
  by_cases h : 95 < line.length
  · rw [if_pos h] at hch
    exact pyChunks95_chunk_le line ch hch
  · rw [if_neg h] at hch
    rw [List.mem_singleton.mp hch]
    omega

theorem drawLines_eq_flatWrap (lines : List (List Char)) :
    ∀ y : Int, drawLines y lines = flatWrap lines := by
  induction lines with
  | nil => intro y; rfl
  | cons line rest ih =>
    intro y
    show drawLines y (line :: rest) = wrapLine line ++ flatWrap rest
    unfold drawLines wrapLine
    by_cases h : 95 < line.length
    · rw [if_pos h, if_pos h, ih]
    · rw [if_neg h, if_neg h, ih]
      rfl

theorem pySplit_ne_nil (sep : Char) (l : List Char) : pySplit sep l ≠ [] := by
  cases l with
  | nil => simp [pySplit]
  | cons c r =>
    unfold pySplit
    by_cases h : c = sep
    · rw [if_pos h]
      simp
    · rw [if_neg h]
      cases hs : pySplit sep r with
      | nil => simp
      | cons a t => simp

theorem joinNl_pySplit (text : List Char) : joinNl (pySplit '\n' text) = text := by
  induction text with
  | nil => rfl
  | cons c r ih =>
    unfold pySplit
    by_cases h : c = '\n'
    · rw [if_pos h]
      cases hs : pySplit '\n' r with
      | nil => exact absurd hs (pySplit_ne_nil '\n' r)
      | cons a t =>
        rw [hs] at ih
        show joinNl ([] :: a :: t) = c :: r
        unfold joinNl
        rw [h]
        show ('\n') :: joinNl (a :: t) = ('\n') :: r
        rw [ih]
    · rw [if_neg h]
      cases hs : pySplit '\n' r with
      | nil => exact absurd hs (pySplit_ne_nil '\n' r)
      | cons a t =>
        rw [hs] at ih
        show joinNl ((c :: a) :: t) = c :: r
        have hstep : joinNl ((c :: a) :: t) = c :: joinNl (a :: t) := by
          cases t with
          | nil => rfl
          | cons b t2 => rfl
        rw [hstep, ih]

/-- Claim C10: the strings drawn into the generated PDF are, in original
order, the per-line chunk lists of at most 95 characters; concatenating
the chunks of each line restores that line, and rejoining the split
lines restores the whole input text. -/
theorem pdf_roundtrip (text : List Char) :
    generate_pdf_drawn text = flatWrap (pySplit '\n' text) ∧
    (∀ line : List Char, joinAll (wrapLine line) = line) ∧
    (∀ line : List Char, ∀ ch, ch ∈ wrapLine line → ch.length ≤ 95) ∧
    joinNl (pySplit '\n' text) = text :=
  ⟨drawLines_eq_flatWrap (pySplit '\n' text) 800, wrapLine_join, wrapLine_chunk_le,
    joinNl_pySplit text⟩
